import Mathlib

/-!
Verification of the position-ledger / monitoring trading engine
(`tradingEngine.mjs` together with the persistence helpers in
`features/swapWithJupiter.js`).

The JavaScript code is shallowly embedded as follows.

* JS finite numbers are modelled as rationals (`ℚ`).  A JS number that may be
  `NaN`/`±Infinity` is `Option ℚ` (`none` = non-finite), and a field that may
  additionally be `null`/`undefined` is `Option (Option ℚ)`.
* JS strings are Lean `String`s.  A string field the code only ever reads
  through truthiness tests (`||`, `!x`) represents `null`/`undefined` as `""`,
  which is falsy in JS exactly like `null`/`undefined`.
* The `Map` of open positions is an association list in insertion order;
  `Map.get`/`Map.set`/`Map.delete` are embedded below (`mapGet`/`mapSet`/
  `mapDelete`).  A JS `Map` never holds two entries with the same key.
* `BigInt(string)` / `BigInt.prototype.toString` are embedded over decimal
  digit strings (`jsBigInt`, `bigIntToString`); the hexadecimal and whitespace
  forms accepted by JS never occur for on-chain raw amounts.
* Timestamps (`new Date().toISOString()`) are nondeterministic inputs and are
  passed as explicit `now : String` arguments.
* External calls (`getSwapQuote`, `executeSwapQuote`, notification sends) are
  passed in as explicit outcomes (`Except Unit _`), `error` meaning the JS
  promise rejected / the call threw.
-/

/-! ## Decimal digit strings and JS `BigInt` conversions -/

/-- Numeric value of a decimal digit character (`'0'` has code point 48). -/
def digitVal (c : Char) : Nat := c.toNat - 48

/-- Value of a decimal digit string read left to right. -/
def valOfChars (l : List Char) : Nat :=
  l.foldl (fun acc c => 10 * acc + digitVal c) 0

/-- Decimal rendering of `n`, most significant digit first.  The first
argument is structural fuel; it is always called with `fuel = n`, and the
recursion stops as soon as the remaining value is `0`. -/
def natDecCharsAux : Nat → Nat → List Char
  | 0, _ => []
  | _ + 1, 0 => []
  | fuel + 1, n + 1 =>
      natDecCharsAux fuel ((n + 1) / 10) ++ [Nat.digitChar ((n + 1) % 10)]

/-- Decimal digit list of a natural number (`0` renders as `"0"`). -/
def natDecChars (n : Nat) : List Char :=
  if n = 0 then ['0'] else natDecCharsAux n n

/-- Canonical decimal string of a natural number, as produced by
`BigInt.prototype.toString()` for non-negative values. -/
def natDecimalString (n : Nat) : String := String.mk (natDecChars n)

/-- Parse a plain (unsigned) decimal digit list; `none` on the empty list or
any non-digit character. -/
def parseDecChars (l : List Char) : Option Nat :=
  if l ≠ [] ∧ l.all Char.isDigit then some (valOfChars l) else none

/-- `BigInt(string)` on the strings that occur in the engine: the empty string
is `0n`, an optional single leading sign is allowed, any other failure throws
(modelled as `none`). -/
def jsBigIntChars (l : List Char) : Option Int :=
  match l with
  | [] => some 0
  | c :: cs =>
    if c = '-' then (parseDecChars cs).map (fun n => -(n : Int))
    else if c = '+' then (parseDecChars cs).map (fun n => (n : Int))
    else (parseDecChars (c :: cs)).map (fun n => (n : Int))

/-- `BigInt(s)` for a JS string `s`. -/
def jsBigInt (s : String) : Option Int := jsBigIntChars s.data

/-- `BigInt.prototype.toString()`: canonical decimal, `-` sign for negatives. -/
def bigIntToString (i : Int) : String :=
  if i < 0 then String.mk ('-' :: natDecChars i.natAbs)
  else String.mk (natDecChars i.natAbs)

theorem digitVal_digitChar {d : Nat} (h : d < 10) :
    digitVal (Nat.digitChar d) = d := by
  interval_cases d <;> decide

theorem isDigit_digitChar {d : Nat} (h : d < 10) :
    (Nat.digitChar d).isDigit = true := by
  interval_cases d <;> decide

theorem valOfChars_append_singleton (l : List Char) (c : Char) :
    valOfChars (l ++ [c]) = 10 * valOfChars l + digitVal c := by
  simp [valOfChars, List.foldl_append]

theorem valOfChars_natDecCharsAux :
    ∀ (fuel n : Nat), n ≤ fuel → valOfChars (natDecCharsAux fuel n) = n := by
  intro fuel
  induction fuel with
  | zero =>
    intro n hn
    interval_cases n
    rfl
  | succ f ih =>
    intro n hn
    match n with
    | 0 => rfl
    | m + 1 =>
      have hdiv : (m + 1) / 10 ≤ f := by
        have := Nat.div_lt_self (Nat.succ_pos m) (by norm_num : 1 < 10)
        omega
      have hmod : (m + 1) % 10 < 10 := Nat.mod_lt _ (by norm_num)
      rw [natDecCharsAux, valOfChars_append_singleton, ih _ hdiv,
        digitVal_digitChar hmod]
      omega

theorem all_isDigit_natDecCharsAux :
    ∀ (fuel n : Nat), (natDecCharsAux fuel n).all Char.isDigit = true := by
  intro fuel
  induction fuel with
  | zero => intro n; rfl
  | succ f ih =>
    intro n
    match n with
    | 0 => rfl
    | m + 1 =>
      rw [natDecCharsAux]
      have hmod : (m + 1) % 10 < 10 := Nat.mod_lt _ (by norm_num)
      simp [List.all_append, ih, isDigit_digitChar hmod]

theorem natDecCharsAux_ne_nil {fuel n : Nat} (hpos : 0 < n) (hle : n ≤ fuel) :
    natDecCharsAux fuel n ≠ [] := by
  match fuel, n with
  | 0, n => omega
  | f + 1, 0 => omega
  | f + 1, m + 1 => rw [natDecCharsAux]; simp

theorem valOfChars_natDecChars (n : Nat) :
    valOfChars (natDecChars n) = n := by
  unfold natDecChars
  by_cases h : n = 0
  · subst h; rfl
  · rw [if_neg h]; exact valOfChars_natDecCharsAux n n le_rfl

theorem all_isDigit_natDecChars (n : Nat) :
    (natDecChars n).all Char.isDigit = true := by
  unfold natDecChars
  by_cases h : n = 0
  · subst h; rfl
  · rw [if_neg h]; exact all_isDigit_natDecCharsAux n n

theorem natDecChars_ne_nil (n : Nat) : natDecChars n ≠ [] := by
  unfold natDecChars
  by_cases h : n = 0
  · subst h; simp
  · rw [if_neg h]
    exact natDecCharsAux_ne_nil (Nat.pos_of_ne_zero h) le_rfl

theorem parseDecChars_natDecChars (n : Nat) :
    parseDecChars (natDecChars n) = some n := by
  unfold parseDecChars
  rw [if_pos ⟨natDecChars_ne_nil n, all_isDigit_natDecChars n⟩,
    valOfChars_natDecChars]

theorem natDecimalString_ne_empty (n : Nat) : natDecimalString n ≠ "" := by
  unfold natDecimalString
  intro h
  exact natDecChars_ne_nil n (congrArg String.data h)

theorem jsBigInt_natDecimalString (n : Nat) :
    jsBigInt (natDecimalString n) = some (n : Int) := by
  have hall := all_isDigit_natDecChars n
  have hval := parseDecChars_natDecChars n
  show jsBigIntChars (natDecChars n) = some (n : Int)
  cases hl : natDecChars n with
  | nil => exact absurd hl (natDecChars_ne_nil n)
  | cons c cs =>
    rw [hl] at hall hval
    have hc : c.isDigit = true := by
      simp [List.all_cons] at hall
      exact hall.1
    have hcm : ¬(c = '-') := by
      intro h; rw [h] at hc; exact absurd hc (by decide)
    have hcp : ¬(c = '+') := by
      intro h; rw [h] at hc; exact absurd hc (by decide)
    simp [jsBigIntChars, if_neg hcm, if_neg hcp, hval]

theorem bigIntToString_natCast (n : Nat) :
    bigIntToString (n : Int) = natDecimalString n := by
  unfold bigIntToString natDecimalString
  rw [if_neg (by exact Int.not_lt.mpr (Int.ofNat_nonneg n)), Int.natAbs_ofNat]

/-! ## JS value conventions -/

/-- A JS number: `none` models the non-finite values (`NaN`, `±Infinity`). -/
abbrev JSNum := Option ℚ

/-- A JS number field that may also be `null`/`undefined` (outer `none`). -/
abbrev NullableNum := Option JSNum

/-- `toSafeNumber` (tradingEngine.mjs:133): `Number.isFinite(Number(v)) ? num
: null`.  `Number(undefined)` is `NaN`; the numeric swap-result fields are
never the literal `null`, so `none` covers the absent case. -/
def toSafeNumber (value : NullableNum) : Option ℚ :=
  match value with
  | some (some q) => some q
  | _ => none

/-- `a || b` on strings where `""` is the only falsy value in play. -/
def orStr (a b : String) : String := if a = "" then b else a

/-- `Number(v || 0)` for a nullable number `v`: `null`, `NaN` and `0` are
falsy and give `0`. -/
def jsNumberOrZero (v : NullableNum) : ℚ :=
  match v with
  | some (some q) => q
  | _ => 0

/-! ## Data model (tradingEngine.mjs) -/

/-- An open position.  String fields following the `""`-for-absent
convention: `baseMint`, `baseSymbol`, `lastBuySignature`, `createdAt`,
`lastUpdatedAt` (the code only reads them through truthiness or `===`
against non-empty mint strings).  `baseDecimals` is read through `??`, which
distinguishes `null` from `0`, hence the `Option`; token decimal counts are
small non-negative integers. -/
structure Position where
  mint : String
  symbol : String
  amountRaw : String
  amountUi : ℚ
  baseMint : String
  baseSymbol : String
  baseDecimals : Option Nat
  costBaseAmount : ℚ
  costUsd : ℚ
  marketCap : Option ℚ
  lastBuySignature : String
  targetProfitPercent : ℚ
  createdAt : String
  lastUpdatedAt : String
deriving DecidableEq

/-- The patch object built in `handleBuySuccess` (tradingEngine.mjs:271-283).
`amountUi` and `costBaseAmount` are `toSafeNumber` results, so they are
either `null` (`none`) or finite; `transactionSignature` is `""` for the
`null` case. -/
structure BuyPatch where
  mint : String
  symbol : String
  amountRaw : Option String
  amountUi : Option ℚ
  baseMint : String
  baseSymbol : String
  baseDecimals : Option Nat
  costBaseAmount : Option ℚ
  marketCap : Option ℚ
  transactionSignature : String
  targetProfitPercent : Option ℚ
deriving DecidableEq

/-- One history event, before the `at` timestamp is stamped on.  Buy and sell
entries carry different subsets of these fields; absent fields are `none`
(respectively `""` for the signature strings). -/
structure HistoryEvent where
  type : String
  mint : String
  symbol : String
  amountUi : Option ℚ
  costUsd : Option ℚ
  receivedUsd : Option ℚ
  profitUsd : Option ℚ
  profitPercent : Option ℚ
  marketCap : Option ℚ
  transactionSignature : String
  buySignature : String
  sellSignature : String
deriving DecidableEq

/-- A stored history entry: the event plus the `at` ISO timestamp added by
`addHistory`. -/
structure HistoryEntry where
  event : HistoryEvent
  «at» : String
deriving DecidableEq

/-- The running summary (tradingEngine.mjs:120-129). -/
structure Summary where
  totalInvestedUsd : ℚ
  totalReturnedUsd : ℚ
  totalProfitUsd : ℚ
  totalProfitPercent : ℚ
  totalClosedTrades : ℚ
  totalOpenPositions : ℚ
  lastUpdatedAt : Option String
  lastUpdateReason : Option String
deriving DecidableEq

/-- `DEFAULT_SUMMARY` (tradingEngine.mjs:120). -/
def DEFAULT_SUMMARY : Summary :=
  { totalInvestedUsd := 0, totalReturnedUsd := 0, totalProfitUsd := 0
    totalProfitPercent := 0, totalClosedTrades := 0, totalOpenPositions := 0
    lastUpdatedAt := none, lastUpdateReason := none }

/-- The engine's mutable trading state: the `positions` map (insertion
order, unique keys), the `history` array and the `summary` object. -/
structure EngineState where
  positions : List (String × Position)
  history : List HistoryEntry
  summary : Summary
deriving DecidableEq

/-- The slice of the settings store the engine reads (`safeStore.getAll()`).
Settings values used numerically are numbers here. -/
structure Settings where
  profitTargetPercent : NullableNum
  token : String
  tokenMint : String
deriving DecidableEq

/-- A wallet token entry as returned by `fetchWalletTokens`. -/
structure WalletToken where
  mint : String
  rawAmount : String
  decimals : Option Nat
  valueUsdt : NullableNum
deriving DecidableEq

/-- A swap quote; `outAmount` is the raw output amount as an unsigned decimal
string (`""` for the absent case, read through `||`). -/
structure Quote where
  outAmount : String
deriving DecidableEq

/-- The swap provider's success outcome consumed by `handleBuySuccess`.
String fields use `""` for absent; numeric fields are `NullableNum` because
the provider may omit them (`Number(undefined)` is `NaN`). -/
structure SwapResult where
  purchasedMint : String
  purchasedAmountRaw : String
  purchasedSymbol : String
  purchasedAmountUi : NullableNum
  spentAmountUi : NullableNum
  marketCap : Option ℚ
  baseMint : String
  baseSymbol : String
  baseDecimals : Option Nat
  transactionSignature : String
deriving DecidableEq

/-! ## The positions `Map` -/

/-- `Map.prototype.get`: the value stored under `k`, if any. -/
def mapGet : List (String × Position) → String → Option Position
  | [], _ => none
  | e :: rest, k => if e.1 = k then some e.2 else mapGet rest k

/-- `Map.prototype.set`: replace the entry for `k` in place, else append.
On the first-occurrence convention this agrees with the JS `Map`, whose keys
are unique. -/
def mapSet : List (String × Position) → String → Position →
    List (String × Position)
  | [], k, v => [(k, v)]
  | e :: rest, k, v =>
    if e.1 = k then (k, v) :: rest else e :: mapSet rest k v

/-- `Map.prototype.delete`: removes the entry for `k` (every occurrence; a JS
`Map` has at most one). -/
def mapDelete : List (String × Position) → String → List (String × Position)
  | [], _ => []
  | e :: rest, k => if e.1 = k then mapDelete rest k else e :: mapDelete rest k

theorem mapGet_set_self (m : List (String × Position)) (k : String)
    (v : Position) : mapGet (mapSet m k v) k = some v := by
  induction m with
  | nil => simp [mapGet, mapSet]
  | cons e rest ih =>
    by_cases h : e.1 = k
    · simp [mapGet, mapSet, h]
    · simpa [mapGet, mapSet, h] using ih

theorem mapGet_set_ne (m : List (String × Position)) (k k' : String)
    (v : Position) (h : k' ≠ k) : mapGet (mapSet m k v) k' = mapGet m k' := by
  induction m with
  | nil => simp [mapGet, mapSet, Ne.symm h]
  | cons e rest ih =>
    by_cases he : e.1 = k
    · simp [mapGet, mapSet, he, Ne.symm h]
    · by_cases he' : e.1 = k'
      · simp [mapGet, mapSet, he, he', h]
      · simpa [mapGet, mapSet, he, he', h] using ih

theorem mapGet_delete_self (m : List (String × Position)) (k : String) :
    mapGet (mapDelete m k) k = none := by
  induction m with
  | nil => rfl
  | cons e rest ih =>
    by_cases h : e.1 = k
    · simpa [mapDelete, h] using ih
    · simpa [mapGet, mapDelete, h] using ih

theorem mapGet_delete_ne (m : List (String × Position)) (k k' : String)
    (h : k' ≠ k) : mapGet (mapDelete m k) k' = mapGet m k' := by
  induction m with
  | nil => rfl
  | cons e rest ih =>
    by_cases he : e.1 = k
    · have he' : ¬(e.1 = k') := by rw [he]; exact Ne.symm h
      simpa [mapGet, mapDelete, he, he', Ne.symm h] using ih
    · by_cases he' : e.1 = k'
      · simp [mapGet, mapDelete, he, he', h]
      · simpa [mapGet, mapDelete, he, he', h] using ih

/-! ## Position ledger operations (tradingEngine.mjs) -/

/-- `{ ...patch }` (tradingEngine.mjs:139): the fresh position created on a
first buy is the patch object itself.  Fields the patch does not carry
(`costUsd`, `createdAt`, `lastUpdatedAt`, `lastBuySignature`) are absent on
the JS object and are only ever read back through `||`/`?? `-style guards,
so they take the conventional absent values here; `null` numeric patch
fields likewise read back as `0` through `Number(x || 0)`. -/
def positionOfPatch (p : BuyPatch) : Position :=
  { mint := p.mint
    symbol := p.symbol
    amountRaw := p.amountRaw.getD ""
    amountUi := (p.amountUi.getD 0)
    baseMint := p.baseMint
    baseSymbol := p.baseSymbol
    baseDecimals := p.baseDecimals
    costBaseAmount := (p.costBaseAmount.getD 0)
    costUsd := 0
    marketCap := p.marketCap
    lastBuySignature := ""
    targetProfitPercent := (p.targetProfitPercent.getD 0)
    createdAt := ""
    lastUpdatedAt := "" }

/-- `mergePosition(existing, patch)` (tradingEngine.mjs:138-168).  The raw
amount is added with exact `BigInt` arithmetic, falling back to the patch's
string verbatim when either side fails to parse; `amountUi` and
`costBaseAmount` accumulate by ordinary numeric addition (the patch fields
are `toSafeNumber` results, so `patch.x != null && Number.isFinite(patch.x)`
is their `isSome`); `costUsd` is re-derived from `costBaseAmount`;
`marketCap`, `lastBuySignature` and `targetProfitPercent` are latest-wins. -/
def mergePosition (existing : Option Position) (patch : BuyPatch)
    (now : String) : Position :=
  match existing with
  | none => positionOfPatch patch
  | some ex =>
    let next1 :=
      match patch.amountRaw with
      | none => ex
      | some praw =>
        match jsBigInt (orStr ex.amountRaw "0"), jsBigInt praw with
        | some a, some b => { ex with amountRaw := bigIntToString (a + b) }
        | _, _ => { ex with amountRaw := praw }
    let next2 :=
      match patch.amountUi with
      | some q => { next1 with amountUi := ex.amountUi + q }
      | none => next1
    let next3 :=
      match patch.costBaseAmount with
      | some q =>
        { next2 with costBaseAmount := ex.costBaseAmount + q
                     costUsd := ex.costBaseAmount + q }
      | none => next2
    let next4 := { next3 with lastUpdatedAt := now }
    let next5 :=
      match patch.marketCap with
      | some mc => { next4 with marketCap := some mc }
      | none => next4
    let next6 :=
      if patch.transactionSignature ≠ "" then
        { next5 with lastBuySignature := patch.transactionSignature }
      else next5
    match patch.targetProfitPercent with
    | some q => { next6 with targetProfitPercent := q }
    | none => next6

/-- `MAX_HISTORY` (tradingEngine.mjs:131). -/
def MAX_HISTORY : Nat := 100

/-- `addHistory(event)` (tradingEngine.mjs:207-213): stamp `at`, push, and
keep only the last `MAX_HISTORY` entries (`history.slice(-MAX_HISTORY)`). -/
def addHistory (history : List HistoryEntry) (event : Option HistoryEvent)
    (now : String) : List HistoryEntry :=
  match event with
  | none => history
  | some e =>
    let h := history ++ [{ event := e, «at» := now }]
    if h.length > MAX_HISTORY then h.drop (h.length - MAX_HISTORY) else h

/-- `persistState(reason)` (tradingEngine.mjs:215-236), up to the advisory
mongo save: stamp the reason and timestamp, re-derive `totalProfitUsd`,
`totalProfitPercent` and `totalOpenPositions` from the other fields and the
live ledger.  The save itself is best-effort and does not touch the state. -/
def persistState (st : EngineState) (reason : Option String) (now : String) :
    EngineState :=
  let s0 := st.summary
  let s1 := { s0 with
    lastUpdateReason :=
      match reason with
      | some r => some r
      | none => s0.lastUpdateReason
    lastUpdatedAt := some now }
  let s2 := { s1 with
    totalProfitUsd := s1.totalReturnedUsd - s1.totalInvestedUsd }
  let s3 := { s2 with
    totalProfitPercent :=
      if 0 < s2.totalInvestedUsd then
        s2.totalProfitUsd / s2.totalInvestedUsd * 100
      else 0 }
  let s4 := { s3 with totalOpenPositions := (st.positions.length : ℚ) }
  { st with summary := s4 }

/-- `TRADING_HISTORY_LIMIT` (swapWithJupiter.js:1177). -/
def TRADING_HISTORY_LIMIT : Nat := 200

/-- The history slice `saveTradingState` puts into the persisted document
(swapWithJupiter.js:1319-1321): `state.history.slice(-TRADING_HISTORY_LIMIT)`,
i.e. the last 200 entries. -/
def savedHistory (history : List HistoryEntry) : List HistoryEntry :=
  history.drop (history.length - TRADING_HISTORY_LIMIT)

/-- `handleBuySuccess` (tradingEngine.mjs:253-324), restricted to its state
effects: upsert the position when the swap reported a mint and a raw amount,
append a `buy` history entry, and persist.  The notification tail does not
touch the state. -/
def handleBuySuccess (st : EngineState) (ticker : String) (sr : SwapResult)
    (settings : Settings) (now : String) : EngineState :=
  let mint := sr.purchasedMint
  let amountRaw := sr.purchasedAmountRaw
  let amountUi := toSafeNumber sr.purchasedAmountUi
  let costBaseAmount := toSafeNumber sr.spentAmountUi
  let marketCap := sr.marketCap
  let targetProfitPercent := jsNumberOrZero settings.profitTargetPercent
  let positions1 :=
    if mint ≠ "" ∧ amountRaw ≠ "" then
      let existing := mapGet st.positions mint
      let patch : BuyPatch :=
        { mint := mint
          symbol := orStr sr.purchasedSymbol ticker
          amountRaw := some amountRaw
          amountUi := amountUi
          baseMint := orStr sr.baseMint settings.tokenMint
          baseSymbol := orStr sr.baseSymbol settings.token
          baseDecimals := sr.baseDecimals
          costBaseAmount := costBaseAmount
          marketCap := marketCap
          transactionSignature := sr.transactionSignature
          targetProfitPercent := some targetProfitPercent }
      let next0 := mergePosition existing patch now
      let next1 :=
        if existing = none then { next0 with createdAt := now } else next0
      let next2 :=
        { next1 with lastUpdatedAt := now, costUsd := next1.costBaseAmount }
      mapSet st.positions mint next2
    else st.positions
  let history1 := addHistory st.history
    (some { type := "buy", mint := mint
            symbol := orStr sr.purchasedSymbol ticker
            amountUi := amountUi, costUsd := costBaseAmount
            receivedUsd := none, profitUsd := none, profitPercent := none
            marketCap := marketCap
            transactionSignature := sr.transactionSignature
            buySignature := "", sellSignature := "" }) now
  persistState { positions := positions1, history := history1
                 summary := st.summary } (some "buy") now

/-- A sequence of successful buys applied in order. -/
def applyBuys (st : EngineState) (ticker : String) (settings : Settings)
    (now : String) (buys : List SwapResult) : EngineState :=
  buys.foldl (fun s sr => handleBuySuccess s ticker sr settings now) st

/-! ## Sell transition handler (tradingEngine.mjs:326-399) -/

/-- `walletToken?.rawAmount || position.amountRaw` (tradingEngine.mjs:328). -/
def sellRawAmount (pos : Position) (walletToken : Option WalletToken) :
    String :=
  orStr (match walletToken with | some w => w.rawAmount | none => "")
    pos.amountRaw

/-- The received base amount (tradingEngine.mjs:337-345): `quote.outAmount`
(`""` is falsy, hence `null`), divided by `10 ** (baseToken?.decimals ??
position.baseDecimals ?? 0)`; non-finite results become `null`. -/
def receivedBaseAmount (pos : Position) (baseToken : Option WalletToken)
    (quote : Quote) : Option ℚ :=
  let outRaw : Option String :=
    if quote.outAmount = "" then none else some quote.outAmount
  let baseDecimals : Nat :=
    ((match baseToken with | some b => b.decimals | none => none).orElse
      (fun _ => pos.baseDecimals)).getD 0
  match outRaw with
  | none => none
  | some s =>
    match parseDecChars s.data with
    | some n => some ((n : ℚ) / (10 : ℚ) ^ baseDecimals)
    | none => none

/-- The summary mutations of a sell (tradingEngine.mjs:355-361):
`totalClosedTrades += 1`; `totalInvestedUsd += cost` when the cost is
positive; `totalReturnedUsd += received` when the received amount is known. -/
def sellSummaryUpdate (s : Summary) (costBaseAmount : ℚ)
    (received : Option ℚ) : Summary :=
  let s1 := { s with totalClosedTrades := s.totalClosedTrades + 1 }
  let s2 :=
    if 0 < costBaseAmount then
      { s1 with totalInvestedUsd := s1.totalInvestedUsd + costBaseAmount }
    else s1
  match received with
  | some r => { s2 with totalReturnedUsd := s2.totalReturnedUsd + r }
  | none => s2

deriving instance DecidableEq for Except

/-- The outcomes of the external calls a sell performs, in program order:
the swap quote, the swap execution, and whether the notification /
outbound-message tail throws.  `Except.error` is a thrown JS exception /
rejected promise. -/
structure SellExternals where
  quote : Except Unit Quote
  exec : Except Unit String
  notifyThrows : Bool
deriving DecidableEq

/-- `handleSellPosition({position, walletToken, baseToken})`
(tradingEngine.mjs:326-399).  Early precondition failures and any thrown
exception yield `false`; the bookkeeping phase deletes the position, updates
the summary, appends a `sell` history entry and persists.  An exception in
the notification tail is caught by the surrounding `try` and still yields
`false`, after the bookkeeping has already happened. -/
def handleSellPosition (st : EngineState) (pos : Position)
    (walletToken baseToken : Option WalletToken) (ext : SellExternals)
    (now : String) : EngineState × Bool :=
  if sellRawAmount pos walletToken = "" then (st, false)
  else if pos.baseMint = "" then (st, false)
  else
    match ext.quote with
    | Except.error _ => (st, false)
    | Except.ok quote =>
      match ext.exec with
      | Except.error _ => (st, false)
      | Except.ok signature =>
        let costBaseAmount := pos.costBaseAmount
        let received := receivedBaseAmount pos baseToken quote
        let profitBase : Option ℚ := received.map (fun r => r - costBaseAmount)
        let profitPercent : Option ℚ :=
          match profitBase with
          | some p =>
            if 0 < costBaseAmount then some (p / costBaseAmount * 100)
            else none
          | none => none
        let positions1 := mapDelete st.positions pos.mint
        let summary1 := sellSummaryUpdate st.summary costBaseAmount received
        let history1 := addHistory st.history
          (some { type := "sell", mint := pos.mint, symbol := pos.symbol
                  amountUi := none
                  costUsd := some costBaseAmount, receivedUsd := received
                  profitUsd := profitBase, profitPercent := profitPercent
                  marketCap := none, transactionSignature := ""
                  buySignature := pos.lastBuySignature
                  sellSignature := signature }) now
        let st1 := persistState
          { positions := positions1, history := history1, summary := summary1 }
          (some "sell") now
        if ext.notifyThrows then (st1, false) else (st1, true)

/-! ## Monitor pass (tradingEngine.mjs:401-437) -/

/-- An external call made by one monitor pass: the single wallet-valuation
fetch, or an invocation of the sell transition handler for a mint. -/
inductive MonitorCall where
  | fetchWalletTokens (vsToken : String)
  | sellInvoke (mint : String)
deriving DecidableEq

/-- The external calls of one monitor pass body (tradingEngine.mjs:401-427),
given the settings read from the store and the wallet tokens the valuation
fetch would return.  An empty ledger returns before reading anything; a
non-positive effective profit target (`!profitTarget || profitTarget <= 0`)
returns before the valuation fetch; otherwise each open position is checked
in ledger order and sold when its profit percent reaches the target. -/
def monitorPassCalls (positions : List (String × Position))
    (settings : Settings) (tokens : List WalletToken) : List MonitorCall :=
  if positions.length = 0 then []
  else
    let profitTarget := jsNumberOrZero settings.profitTargetPercent
    if profitTarget = 0 ∨ profitTarget ≤ 0 then []
    else
      MonitorCall.fetchWalletTokens settings.token ::
        (positions.map (fun e => e.2)).filterMap (fun pos =>
          match tokens.find? (fun t => t.mint == pos.mint) with
          | none => none
          | some token =>
            let currentValue : JSNum :=
              match token.valueUsdt with
              | none => some 0
              | some j => j
            let cost : ℚ := pos.costUsd
            if cost ≤ 0 then none
            else
              match currentValue with
              | none => none
              | some cv =>
                if profitTarget ≤ (cv - cost) / cost * 100 then
                  some (MonitorCall.sellInvoke pos.mint)
                else none)

/-! ## Single-flight monitor guard (tradingEngine.mjs:401-437)

`monitorPositions` runs on the cooperative JS event loop: its synchronous
prefix — the empty-ledger check, the `monitorPromise` check and the
assignment of the new promise — executes atomically, and the pass body only
interleaves with other handlers at `await` points.  The guard is therefore a
small transition system: `openCount` is `positions.size`, `inFlight` holds
the identity of the pass whose promise is stored in `monitorPromise`
(cleared by the `finally`), and `nextPassId` makes pass identities unique. -/

structure MonitorState where
  openCount : Nat
  inFlight : Option Nat
  nextPassId : Nat
deriving DecidableEq

/-- What a call to `monitorPositions` returns: `undefined` immediately, or
the promise of the pass identified by `id` (freshly started or in flight). -/
inductive TriggerResult where
  | immediate
  | promiseOf (id : Nat)
deriving DecidableEq

/-- The atomic synchronous prefix of `monitorPositions`
(tradingEngine.mjs:402-404): return `undefined` on an empty ledger, return
the in-flight promise if one exists, else start a new pass and return its
promise. -/
def triggerMonitor (s : MonitorState) : MonitorState × TriggerResult :=
  if s.openCount = 0 then (s, TriggerResult.immediate)
  else
    match s.inFlight with
    | some i => (s, TriggerResult.promiseOf i)
    | none =>
      ({ s with inFlight := some s.nextPassId
                nextPassId := s.nextPassId + 1 },
        TriggerResult.promiseOf s.nextPassId)

/-- Interleavings the event loop allows around the guard: a timer trigger, a
sell completing inside the running pass (`positions.delete`), a buy handler
completing (`positions.set` of a new mint), and the pass's `finally` clearing
`monitorPromise`. -/
inductive MonitorStep : MonitorState → MonitorState → Prop
  | trigger (s : MonitorState) : MonitorStep s (triggerMonitor s).1
  | sellDuringPass (s : MonitorState) (i : Nat) (h : s.inFlight = some i)
      (h2 : 0 < s.openCount) :
      MonitorStep s { s with openCount := s.openCount - 1 }
  | buyCompleted (s : MonitorState) :
      MonitorStep s { s with openCount := s.openCount + 1 }
  | passFinished (s : MonitorState) (i : Nat) (h : s.inFlight = some i) :
      MonitorStep s { s with inFlight := none }

/-! ## Notification fanout (tradingEngine.mjs:238-251) and the outbound
channel (tradingEngine.mjs:110-118) -/

/-- One dispatch task with its `.catch(() => undefined)`: a rejected send is
swallowed. -/
def caughtTask (outcome : Except Unit Unit) : Except Unit Unit :=
  match outcome with
  | Except.ok _ => Except.ok ()
  | Except.error _ => Except.ok ()

/-- `notifyAll(message)` (tradingEngine.mjs:238-251): one task per registered
chat id (when a notifier with `sendMessage` is configured), each failure
caught and discarded, `Promise.allSettled` awaited when any tasks exist.
Returns the list of channels a task was created for and the call's own
outcome — `allSettled` resolves regardless of the per-task outcomes, so the
call never rejects. -/
def notifyAll (message : String) (notifyChatIds : List String)
    (hasSendMessage : Bool) (outcome : String → Except Unit Unit) :
    List String × Except Unit Unit :=
  if message = "" then ([], Except.ok ())
  else
    let targets := if hasSendMessage then notifyChatIds else []
    let results := targets.map (fun c => caughtTask (outcome c))
    (targets, if results.length > 0 then Except.ok () else Except.ok ())

/-- `sendOutbound(client, text)` (tradingEngine.mjs:110-118): the channels
the separate fixed-outbound send reaches — nothing without a configured
`TELEGRAM_CHAT_ID` or without a client. -/
def sendOutboundTargets (outboundChat : String) (hasClient : Bool) :
    List String :=
  if outboundChat = "" ∨ hasClient = false then [] else [outboundChat]

/-- Modelled from the spec's words (§4.5), for comparison with the code's
`notifyAll`: the channel list one `notifyAll(message)` call is said to
dispatch to — every subscriber *and* the separately configured fixed
outbound channel. -/
def specNotifyAllTargets (notifyChatIds : List String)
    (outboundChat : String) : List String :=
  notifyChatIds ++ (if outboundChat = "" then [] else [outboundChat])

/-! ## Snapshot handed to the persistence adapter (tradingEngine.mjs:228-232)

`persistState` hands `saveTradingState` the object
`{ positions: Array.from(positions.values()), history, summary }`: the
positions array is freshly allocated (and the stored position objects are
never mutated in place — every merge builds a new object), but `history` and
`summary` are the engine's live array and live object.  Observing the handed
document after the engine has moved on therefore dereferences those two
fields against the *current* state (for `history`, up to the point where an
overflow re-slice rebinds the array). -/

/-- The shape of the document handed to `saveTradingState`. -/
structure TradingDoc where
  positions : List Position
  history : List HistoryEntry
  summary : Summary
deriving DecidableEq

/-- `Array.from(positions.values())` at snapshot time. -/
def snapshotPositions (st : EngineState) : List Position :=
  st.positions.map (fun e => e.2)

/-- The document an adapter holding a snapshot taken earlier reads once the
engine's state has become `current`. -/
def observeSnapshot (positionsAtSnapshot : List Position)
    (current : EngineState) : TradingDoc :=
  { positions := positionsAtSnapshot
    history := current.history
    summary := current.summary }

/-! ## Helper lemmas -/

theorem orStr_of_ne (a b : String) (h : a ≠ "") : orStr a b = a := if_neg h

theorem persistState_positions (st : EngineState) (reason : Option String)
    (now : String) : (persistState st reason now).positions = st.positions :=
  rfl

theorem mergePosition_amountRaw_add (ex : Position) (patch : BuyPatch)
    (now : String) (s r : Nat)
    (hex : ex.amountRaw = natDecimalString s)
    (hp : patch.amountRaw = some (natDecimalString r)) :
    (mergePosition (some ex) patch now).amountRaw = natDecimalString (s + r) := by
  have h1 : orStr ex.amountRaw "0" = natDecimalString s := by
    rw [hex]; exact orStr_of_ne _ _ (natDecimalString_ne_empty s)
  have h2 := jsBigInt_natDecimalString s
  have h3 := jsBigInt_natDecimalString r
  have h4 : ((s : Int) + (r : Int)) = ((s + r : Nat) : Int) := by
    push_cast; ring
  obtain ⟨pm, psym, pam, pui, pbm, pbs, pbd, pcb, pmc, pts, ptp⟩ := patch
  dsimp only at hp
  subst hp
  cases pui <;> cases pcb <;> cases pmc <;> cases ptp <;>
    by_cases hts : pts ≠ "" <;>
    simp only [mergePosition, h1, h2, h3, h4, bigIntToString_natCast, hts,
      if_true, if_false, ite_true, ite_false, not_true, not_false_iff] <;>
    simp [hts]

/-- The patch object `handleBuySuccess` passes to `mergePosition`
(tradingEngine.mjs:271-283), as a standalone definition (definitionally the
one inlined in `handleBuySuccess`). -/
def buyPatch (sr : SwapResult) (settings : Settings) (ticker : String) :
    BuyPatch :=
  { mint := sr.purchasedMint
    symbol := orStr sr.purchasedSymbol ticker
    amountRaw := some sr.purchasedAmountRaw
    amountUi := toSafeNumber sr.purchasedAmountUi
    baseMint := orStr sr.baseMint settings.tokenMint
    baseSymbol := orStr sr.baseSymbol settings.token
    baseDecimals := sr.baseDecimals
    costBaseAmount := toSafeNumber sr.spentAmountUi
    marketCap := sr.marketCap
    transactionSignature := sr.transactionSignature
    targetProfitPercent := some (jsNumberOrZero settings.profitTargetPercent) }

/-- The position stored by `handleBuySuccess` (tradingEngine.mjs:270-289):
merge, stamp `createdAt` on a fresh position, stamp `lastUpdatedAt` and
re-derive `costUsd`. -/
def buyNext (st : EngineState) (sr : SwapResult) (settings : Settings)
    (ticker now : String) : Position :=
  let existing := mapGet st.positions sr.purchasedMint
  let next0 := mergePosition existing (buyPatch sr settings ticker) now
  let next1 :=
    if existing = none then { next0 with createdAt := now } else next0
  { next1 with lastUpdatedAt := now, costUsd := next1.costBaseAmount }

theorem handleBuySuccess_positions_eq (st : EngineState) (ticker : String)
    (sr : SwapResult) (settings : Settings) (now : String) :
    (handleBuySuccess st ticker sr settings now).positions =
      (if sr.purchasedMint ≠ "" ∧ sr.purchasedAmountRaw ≠ "" then
        mapSet st.positions sr.purchasedMint (buyNext st sr settings ticker now)
       else st.positions) := rfl

theorem buyNext_amountRaw_existing (st : EngineState) (sr : SwapResult)
    (settings : Settings) (ticker now : String) (ex : Position) (s r : Nat)
    (hget : mapGet st.positions sr.purchasedMint = some ex)
    (hex : ex.amountRaw = natDecimalString s)
    (hr : sr.purchasedAmountRaw = natDecimalString r) :
    (buyNext st sr settings ticker now).amountRaw = natDecimalString (s + r) := by
  have hp : (buyPatch sr settings ticker).amountRaw
      = some (natDecimalString r) := by
    simp [buyPatch, hr]
  unfold buyNext
  rw [hget]
  simp [mergePosition_amountRaw_add ex (buyPatch sr settings ticker) now s r
    hex hp]

theorem buyNext_amountRaw_fresh (st : EngineState) (sr : SwapResult)
    (settings : Settings) (ticker now : String) (r : Nat)
    (hget : mapGet st.positions sr.purchasedMint = none)
    (hr : sr.purchasedAmountRaw = natDecimalString r) :
    (buyNext st sr settings ticker now).amountRaw = natDecimalString r := by
  unfold buyNext
  rw [hget]
  simp [mergePosition, positionOfPatch, buyPatch, hr]

theorem applyBuys_cons (st : EngineState) (ticker : String)
    (settings : Settings) (now : String) (b : SwapResult)
    (bs : List SwapResult) :
    applyBuys st ticker settings now (b :: bs) =
      applyBuys (handleBuySuccess st ticker b settings now) ticker settings
        now bs := rfl

theorem applyBuys_amountRaw_inv (ticker : String) (settings : Settings)
    (now mint : String) (hmint : mint ≠ "") (buys : List SwapResult)
    (rs : List Nat)
    (hbuys : List.Forall₂ (fun sr r => sr.purchasedMint = mint ∧
      sr.purchasedAmountRaw = natDecimalString r) buys rs) :
    ∀ (st : EngineState) (ex : Position) (s : Nat),
      mapGet st.positions mint = some ex →
      ex.amountRaw = natDecimalString s →
      ∃ p, mapGet (applyBuys st ticker settings now buys).positions mint
          = some p ∧ p.amountRaw = natDecimalString (s + rs.sum) := by
  induction hbuys with
  | nil =>
    intro st ex s hget hex
    exact ⟨ex, by simpa [applyBuys] using hget, by simpa using hex⟩
  | cons h1 htail ih =>
    rename_i a b l1 l2
    intro st ex s hget hex
    obtain ⟨hm1, hr1⟩ := h1
    have hget' : mapGet st.positions a.purchasedMint = some ex := by
      rw [hm1]; exact hget
    have hcond : a.purchasedMint ≠ "" ∧ a.purchasedAmountRaw ≠ "" := by
      constructor
      · rw [hm1]; exact hmint
      · rw [hr1]; exact natDecimalString_ne_empty b
    have hstep : mapGet (handleBuySuccess st ticker a settings now).positions
        mint = some (buyNext st a settings ticker now) := by
      rw [handleBuySuccess_positions_eq, if_pos hcond, ← hm1]
      exact mapGet_set_self _ _ _
    have hraw : (buyNext st a settings ticker now).amountRaw
        = natDecimalString (s + b) :=
      buyNext_amountRaw_existing st a settings ticker now ex s b hget' hex hr1
    obtain ⟨p, hp1, hp2⟩ := ih (handleBuySuccess st ticker a settings now)
      (buyNext st a settings ticker now) (s + b) hstep hraw
    refine ⟨p, ?_, ?_⟩
    · rw [applyBuys_cons]; exact hp1
    · rw [hp2]
      exact congrArg natDecimalString (by simp [List.sum_cons]; omega)

/-- C1: for every sequence of successful buys of the same mint whose
`amountRaw` patch values are (canonical) decimal integer strings `r1..rN`,
the resulting `Position.amountRaw` is the exact decimal string of
`r1+...+rN`, computed by exact `BigInt` addition. -/
theorem buys_amountRaw_exact_sum
    (st : EngineState) (ticker : String) (settings : Settings)
    (now mint : String) (buys : List SwapResult) (rs : List Nat)
    (hmint : mint ≠ "")
    (hfresh : mapGet st.positions mint = none)
    (hbuys : List.Forall₂ (fun sr r => sr.purchasedMint = mint ∧
      sr.purchasedAmountRaw = natDecimalString r) buys rs)
    (hne : rs ≠ []) :
    ∃ p, mapGet (applyBuys st ticker settings now buys).positions mint
        = some p ∧ p.amountRaw = natDecimalString rs.sum := by
  cases hbuys with
  | nil => exact absurd rfl hne
  | cons h1 htail =>
    rename_i a b l1 l2
    obtain ⟨hm1, hr1⟩ := h1
    have hcond : a.purchasedMint ≠ "" ∧ a.purchasedAmountRaw ≠ "" := by
      constructor
      · rw [hm1]; exact hmint
      · rw [hr1]; exact natDecimalString_ne_empty b
    have hget' : mapGet st.positions a.purchasedMint = none := by
      rw [hm1]; exact hfresh
    have hstep : mapGet (handleBuySuccess st ticker a settings now).positions
        mint = some (buyNext st a settings ticker now) := by
      rw [handleBuySuccess_positions_eq, if_pos hcond, ← hm1]
      exact mapGet_set_self _ _ _
    have hraw := buyNext_amountRaw_fresh st a settings ticker now b hget' hr1
    obtain ⟨p, hp1, hp2⟩ := applyBuys_amountRaw_inv ticker settings now mint
      hmint l1 l2 htail (handleBuySuccess st ticker a settings now)
      (buyNext st a settings ticker now) b hstep hraw
    refine ⟨p, ?_, ?_⟩
    · rw [applyBuys_cons]; exact hp1
    · rw [hp2]
      exact congrArg natDecimalString (by simp [List.sum_cons])

/-- A fresh engine state: empty ledger, empty history, default summary. -/
def engineW0 : EngineState :=
  { positions := [], history := [], summary := DEFAULT_SUMMARY }

/-- Concrete settings used by the witnesses. -/
def settingsW : Settings :=
  { profitTargetPercent := some (some 20), token := "USDT"
    tokenMint := "BASE" }

/-- First concrete successful buy of mint `"MINT"`, raw amount `"12"`. -/
def buySwapW1 : SwapResult :=
  { purchasedMint := "MINT", purchasedAmountRaw := natDecimalString 12
    purchasedSymbol := "SYM", purchasedAmountUi := some (some 1)
    spentAmountUi := some (some 5), marketCap := none
    baseMint := "BASE", baseSymbol := "USDT", baseDecimals := some 6
    transactionSignature := "sig1" }

/-- Second concrete successful buy of mint `"MINT"`, raw amount `"25"`. -/
def buySwapW2 : SwapResult :=
  { purchasedMint := "MINT", purchasedAmountRaw := natDecimalString 25
    purchasedSymbol := "SYM", purchasedAmountUi := some (some 2)
    spentAmountUi := some (some 7), marketCap := none
    baseMint := "BASE", baseSymbol := "USDT", baseDecimals := some 6
    transactionSignature := "sig2" }

/-- Witness for C1: two concrete buys of `"12"` and `"25"` leave the exact
decimal string of `37` in the ledger. -/
theorem buys_amountRaw_exact_sum_witness :
    ∃ p, mapGet (applyBuys engineW0 "TICK" settingsW "t0"
        [buySwapW1, buySwapW2]).positions "MINT" = some p ∧
      p.amountRaw = natDecimalString 37 := by
  have hb : List.Forall₂ (fun (sr : SwapResult) (r : Nat) =>
      sr.purchasedMint = "MINT" ∧ sr.purchasedAmountRaw = natDecimalString r)
      [buySwapW1, buySwapW2] [12, 25] :=
    List.Forall₂.cons ⟨rfl, rfl⟩
      (List.Forall₂.cons ⟨rfl, rfl⟩ List.Forall₂.nil)
  have h := buys_amountRaw_exact_sum engineW0 "TICK" settingsW "t0" "MINT"
    [buySwapW1, buySwapW2] [12, 25] (by decide) rfl hb (by decide)
  simpa using h

set_option maxHeartbeats 1000000 in
theorem mergePosition_frame (ex : Position) (patch : BuyPatch)
    (now : String) :
    (mergePosition (some ex) patch now).mint = ex.mint ∧
    (mergePosition (some ex) patch now).symbol = ex.symbol ∧
    (mergePosition (some ex) patch now).baseMint = ex.baseMint ∧
    (mergePosition (some ex) patch now).baseSymbol = ex.baseSymbol ∧
    (mergePosition (some ex) patch now).baseDecimals = ex.baseDecimals ∧
    (mergePosition (some ex) patch now).createdAt = ex.createdAt := by
  obtain ⟨pm, psym, pam, pui, pbm, pbs, pbd, pcb, pmc, pts, ptp⟩ := patch
  cases pam with
  | none =>
    cases pui <;> cases pcb <;> cases pmc <;> cases ptp <;>
      by_cases hts : pts ≠ "" <;> simp [mergePosition, hts]
  | some praw =>
    cases hA : jsBigInt (orStr ex.amountRaw "0") <;>
      cases hB : jsBigInt praw <;>
      cases pui <;> cases pcb <;> cases pmc <;> cases ptp <;>
      by_cases hts : pts ≠ "" <;> simp [mergePosition, hA, hB, hts]

theorem buyNext_frame (st : EngineState) (sr : SwapResult)
    (settings : Settings) (ticker now : String) (ex : Position)
    (hget : mapGet st.positions sr.purchasedMint = some ex) :
    (buyNext st sr settings ticker now).mint = ex.mint ∧
    (buyNext st sr settings ticker now).symbol = ex.symbol ∧
    (buyNext st sr settings ticker now).baseMint = ex.baseMint ∧
    (buyNext st sr settings ticker now).baseSymbol = ex.baseSymbol ∧
    (buyNext st sr settings ticker now).baseDecimals = ex.baseDecimals ∧
    (buyNext st sr settings ticker now).createdAt = ex.createdAt := by
  have h := mergePosition_frame ex (buyPatch sr settings ticker) now
  unfold buyNext
  rw [hget]
  simpa using h

/-- C10: a buy that tops up an existing position changes only the documented
fields — the stored position keeps the prior `mint`, `symbol`, `baseMint`,
`baseSymbol`, `baseDecimals` and `createdAt`, whatever the patch carries. -/
theorem handleBuySuccess_preserves_identity_fields
    (st : EngineState) (ticker now : String) (sr : SwapResult)
    (settings : Settings) (ex : Position)
    (h1 : sr.purchasedMint ≠ "") (h2 : sr.purchasedAmountRaw ≠ "")
    (hget : mapGet st.positions sr.purchasedMint = some ex) :
    ∃ p, mapGet (handleBuySuccess st ticker sr settings now).positions
        sr.purchasedMint = some p ∧
      p.mint = ex.mint ∧ p.symbol = ex.symbol ∧ p.baseMint = ex.baseMint ∧
      p.baseSymbol = ex.baseSymbol ∧ p.baseDecimals = ex.baseDecimals ∧
      p.createdAt = ex.createdAt := by
  refine ⟨buyNext st sr settings ticker now, ?_,
    buyNext_frame st sr settings ticker now ex hget⟩
  rw [handleBuySuccess_positions_eq, if_pos ⟨h1, h2⟩]
  exact mapGet_set_self _ _ _

/-- An existing position used by the C10 witness: identity fields that the
subsequent patch tries to overwrite with different values. -/
def positionW : Position :=
  { mint := "MINT", symbol := "OLD", amountRaw := natDecimalString 12
    amountUi := 1, baseMint := "OLDBASE", baseSymbol := "OLDUSD"
    baseDecimals := some 9, costBaseAmount := 5, costUsd := 5
    marketCap := none, lastBuySignature := "sig0"
    targetProfitPercent := 10, createdAt := "t0", lastUpdatedAt := "t0" }

/-- An engine state already holding `positionW`. -/
def engineW1 : EngineState :=
  { positions := [("MINT", positionW)], history := [], summary := DEFAULT_SUMMARY }

/-- Witness for C10: topping `positionW` up with `buySwapW2` (which carries a
different symbol, base mint, base symbol and base decimals) keeps the six
identity fields. -/
theorem handleBuySuccess_preserves_identity_fields_witness :
    ∃ p, mapGet (handleBuySuccess engineW1 "TICK" buySwapW2 settingsW
        "t1").positions buySwapW2.purchasedMint = some p ∧
      p.mint = positionW.mint ∧ p.symbol = positionW.symbol ∧
      p.baseMint = positionW.baseMint ∧ p.baseSymbol = positionW.baseSymbol ∧
      p.baseDecimals = positionW.baseDecimals ∧
      p.createdAt = positionW.createdAt :=
  handleBuySuccess_preserves_identity_fields engineW1 "TICK" "t1" buySwapW2
    settingsW positionW (by decide) (by decide) (by decide)

/-- C3: after every persist, `totalProfitUsd = totalReturnedUsd -
totalInvestedUsd`, `totalProfitPercent` is the derived ratio when
`totalInvestedUsd > 0` and `0` otherwise, and `totalOpenPositions` equals
the live ledger size; the two profit fields are only ever recomputed here —
the sell-side summary mutation (`sellSummaryUpdate`, the only other writer
of the summary) leaves them untouched. -/
theorem persistState_summary_invariants (st : EngineState)
    (reason : Option String) (now : String) (s : Summary)
    (costBaseAmount : ℚ) (received : Option ℚ) :
    ((persistState st reason now).summary.totalProfitUsd =
      (persistState st reason now).summary.totalReturnedUsd -
        (persistState st reason now).summary.totalInvestedUsd) ∧
    ((persistState st reason now).summary.totalProfitPercent =
      if 0 < (persistState st reason now).summary.totalInvestedUsd then
        (persistState st reason now).summary.totalProfitUsd /
          (persistState st reason now).summary.totalInvestedUsd * 100
      else 0) ∧
    ((persistState st reason now).summary.totalOpenPositions =
      ((persistState st reason now).positions.length : ℚ)) ∧
    (sellSummaryUpdate s costBaseAmount received).totalProfitUsd =
      s.totalProfitUsd ∧
    (sellSummaryUpdate s costBaseAmount received).totalProfitPercent =
      s.totalProfitPercent := by
  refine ⟨rfl, rfl, rfl, ?_, ?_⟩ <;>
    cases received <;> by_cases h : 0 < costBaseAmount <;>
      simp [sellSummaryUpdate, h]

/-- C7: every append leaves at most `MAX_HISTORY = 100` entries in memory,
keeping exactly the most recent ones (the result is the tail slice of the
pushed list), and the history slice put into the persisted document is at
most the last `TRADING_HISTORY_LIMIT = 200` entries. -/
theorem history_append_bounded (hist : List HistoryEntry) (e : HistoryEvent)
    (now : String) :
    (addHistory hist (some e) now).length ≤ MAX_HISTORY ∧
    addHistory hist (some e) now =
      (hist ++ [({ event := e, «at» := now } : HistoryEntry)]).drop
        ((hist ++ [({ event := e, «at» := now } : HistoryEntry)]).length -
          MAX_HISTORY) ∧
    (savedHistory (addHistory hist (some e) now)).length ≤
      TRADING_HISTORY_LIMIT ∧
    List.IsSuffix (savedHistory (addHistory hist (some e) now))
      (addHistory hist (some e) now) := by
  have key : addHistory hist (some e) now =
      (hist ++ [({ event := e, «at» := now } : HistoryEntry)]).drop
        ((hist ++ [({ event := e, «at» := now } : HistoryEntry)]).length -
          MAX_HISTORY) := by
    unfold addHistory
    dsimp only
    split
    · rfl
    · rename_i hc
      have h0 :
          (hist ++ [({ event := e, «at» := now } : HistoryEntry)]).length -
            MAX_HISTORY = 0 := by
        simp only [List.length_append, List.length_cons, List.length_nil,
          MAX_HISTORY] at hc ⊢
        omega
      rw [h0, List.drop_zero]
  refine ⟨?_, key, ?_, ?_⟩
  · rw [key, List.length_drop]
    simp [MAX_HISTORY]
    omega
  · rw [savedHistory, List.length_drop]
    simp [TRADING_HISTORY_LIMIT]
    omega
  · exact List.drop_suffix _ _

theorem handleSellPosition_success_spec (st : EngineState) (pos : Position)
    (wt bt : Option WalletToken) (ext : SellExternals) (now : String)
    (htrue : (handleSellPosition st pos wt bt ext now).2 = true) :
    ((handleSellPosition st pos wt bt ext now).1).positions =
      mapDelete st.positions pos.mint ∧
    ((handleSellPosition st pos wt bt ext now).1).summary.totalClosedTrades =
      st.summary.totalClosedTrades + 1 ∧
    ((handleSellPosition st pos wt bt ext now).1).summary.totalInvestedUsd =
      st.summary.totalInvestedUsd +
        (if 0 < pos.costBaseAmount then pos.costBaseAmount else 0) ∧
    (∀ q, ext.quote = Except.ok q →
      ((handleSellPosition st pos wt bt ext now).1).summary.totalReturnedUsd =
        st.summary.totalReturnedUsd +
          ((receivedBaseAmount pos bt q).getD 0)) := by
  obtain ⟨extq, exte, extn⟩ := ext
  by_cases hra : sellRawAmount pos wt = ""
  · simp [handleSellPosition, hra] at htrue
  by_cases hbm : pos.baseMint = ""
  · simp [handleSellPosition, hra, hbm] at htrue
  cases extq with
  | error e => simp [handleSellPosition, hra, hbm] at htrue
  | ok q =>
    cases exte with
    | error e2 => simp [handleSellPosition, hra, hbm] at htrue
    | ok sig =>
      cases extn with
      | true => simp [handleSellPosition, hra, hbm] at htrue
      | false =>
        refine ⟨?_, ?_, ?_, ?_⟩
        · simp [handleSellPosition, hra, hbm, persistState, mapDelete]
        · cases hrec : receivedBaseAmount pos bt q <;>
            by_cases hcb : 0 < pos.costBaseAmount <;>
            simp [handleSellPosition, hra, hbm, persistState,
              sellSummaryUpdate, hrec, hcb]
        · cases hrec : receivedBaseAmount pos bt q <;>
            by_cases hcb : 0 < pos.costBaseAmount <;>
            simp [handleSellPosition, hra, hbm, persistState,
              sellSummaryUpdate, hrec, hcb]
        · intro q2 hq2
          injection hq2 with hq2
          subst hq2
          cases hrec : receivedBaseAmount pos bt q <;>
            by_cases hcb : 0 < pos.costBaseAmount <;>
            simp [handleSellPosition, hra, hbm, persistState,
              sellSummaryUpdate, hrec, hcb]

/-- C2: a successful auto-sell (one that reaches the bookkeeping phase and
returns `true`) of a position present in the ledger removes exactly that
position, increments `totalClosedTrades` by exactly 1, adds the cost to
`totalInvestedUsd` when positive, and adds the received base amount to
`totalReturnedUsd` when it is known. -/
theorem handleSellPosition_success_effects (st : EngineState) (pos : Position)
    (wt bt : Option WalletToken) (ext : SellExternals) (now : String)
    (hpos : mapGet st.positions pos.mint = some pos)
    (htrue : (handleSellPosition st pos wt bt ext now).2 = true) :
    mapGet ((handleSellPosition st pos wt bt ext now).1).positions pos.mint
      = none ∧
    (∀ k, k ≠ pos.mint →
      mapGet ((handleSellPosition st pos wt bt ext now).1).positions k =
        mapGet st.positions k) ∧
    ((handleSellPosition st pos wt bt ext now).1).summary.totalClosedTrades =
      st.summary.totalClosedTrades + 1 ∧
    ((handleSellPosition st pos wt bt ext now).1).summary.totalInvestedUsd =
      st.summary.totalInvestedUsd +
        (if 0 < pos.costBaseAmount then pos.costBaseAmount else 0) ∧
    (∀ q, ext.quote = Except.ok q →
      ((handleSellPosition st pos wt bt ext now).1).summary.totalReturnedUsd =
        st.summary.totalReturnedUsd +
          ((receivedBaseAmount pos bt q).getD 0)) := by
  have h := handleSellPosition_success_spec st pos wt bt ext now htrue
  refine ⟨?_, ?_, h.2.1, h.2.2.1, h.2.2.2⟩
  · rw [h.1]; exact mapGet_delete_self _ _
  · intro k hk; rw [h.1]; exact mapGet_delete_ne _ _ _ hk

/-- The concrete open position sold by the C2 witness. -/
def sellPosW : Position :=
  { mint := "M1", symbol := "S", amountRaw := natDecimalString 100
    amountUi := 1, baseMint := "BASE", baseSymbol := "USDT"
    baseDecimals := some 0, costBaseAmount := 10, costUsd := 10
    marketCap := none, lastBuySignature := "sb", targetProfitPercent := 0
    createdAt := "t0", lastUpdatedAt := "t0" }

/-- An engine state holding exactly `sellPosW`. -/
def engineSellW : EngineState :=
  { positions := [("M1", sellPosW)], history := [], summary := DEFAULT_SUMMARY }

/-- External outcomes for a fully successful sell: a quote returning raw
`"15"`, a successful execution, and a quiet notification tail. -/
def sellExtW : SellExternals :=
  { quote := Except.ok { outAmount := natDecimalString 15 }
    exec := Except.ok "sigSell", notifyThrows := false }

/-- Witness for C2: the concrete successful sell removes `"M1"` and bumps
`totalClosedTrades` by exactly one. -/
theorem handleSellPosition_success_effects_witness :
    mapGet ((handleSellPosition engineSellW sellPosW none none sellExtW
        "t1").1).positions sellPosW.mint = none ∧
    ((handleSellPosition engineSellW sellPosW none none sellExtW
        "t1").1).summary.totalClosedTrades =
      engineSellW.summary.totalClosedTrades + 1 := by
  have h := handleSellPosition_success_effects engineSellW sellPosW none none
    sellExtW "t1" (by decide) (by decide)
  exact ⟨h.1, h.2.2.1⟩

/-- C6: the auto-sell handler returns `false` without any state mutation
when the position has no non-empty raw balance or no configured
base-denomination mint, and returns `false` (instead of propagating) for any
exception thrown by the quote, the execution, or the notification tail. -/
theorem handleSellPosition_guards_and_catch (st : EngineState)
    (pos : Position) (wt bt : Option WalletToken) (ext : SellExternals)
    (now : String) :
    (sellRawAmount pos wt = "" →
      handleSellPosition st pos wt bt ext now = (st, false)) ∧
    (pos.baseMint = "" →
      handleSellPosition st pos wt bt ext now = (st, false)) ∧
    ((ext.quote = Except.error () ∨ ext.exec = Except.error () ∨
        ext.notifyThrows = true) →
      (handleSellPosition st pos wt bt ext now).2 = false) := by
  refine ⟨?_, ?_, ?_⟩
  · intro h
    simp [handleSellPosition, h]
  · intro h
    by_cases hra : sellRawAmount pos wt = "" <;>
      simp [handleSellPosition, h, hra]
  · intro h
    by_cases hra : sellRawAmount pos wt = ""
    · simp [handleSellPosition, hra]
    by_cases hbm : pos.baseMint = ""
    · simp [handleSellPosition, hra, hbm]
    obtain ⟨extq, exte, extn⟩ := ext
    cases extq with
    | error e => simp [handleSellPosition, hra, hbm]
    | ok q =>
      cases exte with
      | error e2 => simp [handleSellPosition, hra, hbm]
      | ok sig =>
        simp only [reduceCtorEq, false_or] at h
        simp [handleSellPosition, hra, hbm, h]

/-- A position with a raw balance but no configured base-denomination mint,
for the C6 witness. -/
def posNoBaseW : Position :=
  { mint := "M2", symbol := "S2", amountRaw := natDecimalString 100
    amountUi := 1, baseMint := "", baseSymbol := ""
    baseDecimals := none, costBaseAmount := 10, costUsd := 10
    marketCap := none, lastBuySignature := "", targetProfitPercent := 0
    createdAt := "t0", lastUpdatedAt := "t0" }

/-- Witness for C6: auto-selling `posNoBaseW` (no base mint) returns `false`
and leaves the state untouched. -/
theorem handleSellPosition_guards_and_catch_witness :
    handleSellPosition engineSellW posNoBaseW none none sellExtW "t1" =
      (engineSellW, false) :=
  (handleSellPosition_guards_and_catch engineSellW posNoBaseW none none
    sellExtW "t1").2.1 (by decide)

/-- C5: when the effective profit target read from configuration is not a
positive number, a monitor pass makes no external calls at all — no
wallet-valuation fetch and no sell-handler invocation — however profitable
the open positions are. -/
theorem monitorPass_disabled_no_calls (positions : List (String × Position))
    (settings : Settings) (tokens : List WalletToken)
    (h : jsNumberOrZero settings.profitTargetPercent ≤ 0) :
    monitorPassCalls positions settings tokens = [] := by
  unfold monitorPassCalls
  by_cases hp : positions.length = 0
  · rw [if_pos hp]
  · rw [if_neg hp]
    dsimp only
    rw [if_pos (Or.inr h)]

/-- Settings whose profit target is `0`, disabling profit-taking. -/
def settingsDisabledW : Settings :=
  { profitTargetPercent := some (some 0), token := "USDT"
    tokenMint := "BASE" }

/-- A wallet valuation that would make `sellPosW` hugely profitable. -/
def tokensW : List WalletToken :=
  [{ mint := "M1", rawAmount := natDecimalString 100, decimals := some 0
     valueUsdt := some (some 1000000) }]

/-- Witness for C5: with profit target `0` and a wildly profitable open
position, the pass still makes no calls. -/
theorem monitorPass_disabled_no_calls_witness :
    monitorPassCalls [("M1", sellPosW)] settingsDisabledW tokensW = [] :=
  monitorPass_disabled_no_calls [("M1", sellPosW)] settingsDisabledW tokensW
    (by decide)

/-- C4 counterexample: the claim says every trigger arriving while a pass is
in flight returns the same in-flight result; but when the running pass has
already sold the last open position, a new trigger hits the empty-ledger
early return (tradingEngine.mjs:402) *before* the `monitorPromise` check and
returns `undefined` instead of the in-flight promise.  The state below is
reached from an initial one-position idle state by a trigger followed by a
mid-pass sell. -/
theorem trigger_inflight_counterexample :
    Relation.ReflTransGen MonitorStep
      { openCount := 1, inFlight := none, nextPassId := 0 }
      { openCount := 0, inFlight := some 0, nextPassId := 1 } ∧
    ({ openCount := 0, inFlight := some 0, nextPassId := 1 } :
      MonitorState).inFlight = some 0 ∧
    (triggerMonitor
        { openCount := 0, inFlight := some 0, nextPassId := 1 }).2 =
      TriggerResult.immediate ∧
    TriggerResult.immediate ≠ TriggerResult.promiseOf 0 := by
  refine ⟨?_, rfl, rfl, by decide⟩
  have h1 : MonitorStep { openCount := 1, inFlight := none, nextPassId := 0 }
      { openCount := 1, inFlight := some 0, nextPassId := 1 } := by
    have heq : (triggerMonitor
        { openCount := 1, inFlight := none, nextPassId := 0 }).1 =
        { openCount := 1, inFlight := some 0, nextPassId := 1 } := by decide
    rw [← heq]
    exact MonitorStep.trigger _
  have h2 : MonitorStep { openCount := 1, inFlight := some 0, nextPassId := 1 }
      { openCount := 0, inFlight := some 0, nextPassId := 1 } := by
    have heq : ({ openCount := 1, inFlight := some 0, nextPassId := 1 } :
        MonitorState).openCount - 1 = 0 := by decide
    have := MonitorStep.sellDuringPass
      { openCount := 1, inFlight := some 0, nextPassId := 1 } 0 rfl
      (by decide)
    simpa using this
  exact Relation.ReflTransGen.head h1 (Relation.ReflTransGen.single h2)

/-- C4 (amended): a trigger that arrives while a pass is in flight never
starts a second pass and leaves the guard state unchanged (so at most one
pass ever runs, ticks are never queued, and extra triggers add no work); it
returns the in-flight pass's promise whenever any position is open, and
degenerates to an immediate `undefined` return only when the ledger is
empty. -/
theorem trigger_inflight_no_second_pass (s : MonitorState) (i : Nat)
    (h : s.inFlight = some i) :
    (triggerMonitor s).1 = s ∧
    ((triggerMonitor s).2 = TriggerResult.promiseOf i ∨
      ((triggerMonitor s).2 = TriggerResult.immediate ∧ s.openCount = 0)) := by
  unfold triggerMonitor
  by_cases hc : s.openCount = 0
  · simp [hc]
  · simp [hc, h]

/-- Witness for the amended C4: with one open position and pass `0` in
flight, a trigger changes nothing and returns the in-flight promise. -/
theorem trigger_inflight_no_second_pass_witness :
    (triggerMonitor { openCount := 1, inFlight := some 0, nextPassId := 1 }).1
      = { openCount := 1, inFlight := some 0, nextPassId := 1 } :=
  (trigger_inflight_no_second_pass
    { openCount := 1, inFlight := some 0, nextPassId := 1 } 0 rfl).1

/-- C9 counterexample: with one subscriber and a configured outbound channel,
the channel list `notifyAll` actually dispatches to is not the
subscribers-plus-outbound list the spec describes — `notifyAll`
(tradingEngine.mjs:238-251) never messages the outbound channel; that is
done by the separate sequential `sendOutbound` calls at its call sites. -/
theorem notifyAll_misses_outbound_counterexample :
    (notifyAll "msg" ["subscriber"] true (fun _ => Except.ok ())).1 ≠
      specNotifyAllTargets ["subscriber"] "outboundChannel" := by
  decide

/-- C9 (amended): `notifyAll` dispatches concurrently to exactly the
registered subscriber channels (the fixed outbound channel is messaged by
the separate `sendOutbound` call); every per-subscriber failure is caught
and discarded without affecting which siblings are dispatched to, and the
call resolves successfully whatever the individual outcomes. -/
theorem notifyAll_subscribers_only (message : String) (chatIds : List String)
    (outcome : String → Except Unit Unit) (h : message ≠ "") :
    (notifyAll message chatIds true outcome).1 = chatIds ∧
    (notifyAll message chatIds true outcome).2 = Except.ok () ∧
    (notifyAll message chatIds true outcome).1 =
      (notifyAll message chatIds true (fun _ => Except.error ())).1 := by
  unfold notifyAll
  simp [h]

/-- Witness for the amended C9: both subscribers are dispatched to even when
every delivery rejects. -/
theorem notifyAll_subscribers_only_witness :
    (notifyAll "m" ["a", "b"] true (fun _ => Except.error ())).1 =
      ["a", "b"] :=
  (notifyAll_subscribers_only "m" ["a", "b"] (fun _ => Except.error ())
    (by decide)).1

/-- C8 counterexample: the document handed to the persistence adapter is not
a value copy — the engine's `history` array and `summary` object are passed
by live reference, so a successful sell performed after the snapshot changes
what is observed through the handed document. -/
theorem snapshot_not_value_copy_counterexample :
    observeSnapshot (snapshotPositions engineSellW)
        ((handleSellPosition engineSellW sellPosW none none sellExtW
          "t1").1) ≠
      observeSnapshot (snapshotPositions engineSellW) engineSellW := by
  decide

/-- C8 (amended): only the `positions` array of the handed document is a
fresh copy (`Array.from(positions.values())`) — its component of the
observed document stays what it was at snapshot time — while `history` and
`summary` are live references; a successful sell after the snapshot is
visible through the handed document, e.g. as the incremented
`totalClosedTrades`.  The deep value-copying happens only inside the
persistence adapter (`saveTradingState`). -/
theorem snapshot_positions_copied_rest_live (st : EngineState)
    (pos : Position) (wt bt : Option WalletToken) (ext : SellExternals)
    (now : String)
    (htrue : (handleSellPosition st pos wt bt ext now).2 = true) :
    (observeSnapshot (snapshotPositions st)
        ((handleSellPosition st pos wt bt ext now).1)).positions =
      snapshotPositions st ∧
    (observeSnapshot (snapshotPositions st)
        ((handleSellPosition st pos wt bt ext
          now).1)).summary.totalClosedTrades =
      st.summary.totalClosedTrades + 1 :=
  ⟨rfl, (handleSellPosition_success_spec st pos wt bt ext now htrue).2.1⟩

/-- Witness for the amended C8: the concrete sell's bookkeeping is observable
through the document snapshotted beforehand. -/
theorem snapshot_positions_copied_rest_live_witness :
    (observeSnapshot (snapshotPositions engineSellW)
        ((handleSellPosition engineSellW sellPosW none none sellExtW
          "t1").1)).summary.totalClosedTrades =
      engineSellW.summary.totalClosedTrades + 1 :=
  (snapshot_positions_copied_rest_live engineSellW sellPosW none none
    sellExtW "t1" (by decide)).2
